import Mathlib

/-!
Shallow embedding of the Schrader TPMS decoder core from
src/src/devices/schraeder.c: the three frame decoders (Classic, EG53MA4, SE3),
their integrity algorithms, and the bit-extraction primitive they consume.
A bitbuffer row is modelled as a list of bits; machine bytes are natural
numbers below 256; the C double output scaling is modelled exactly over ℚ.
-/

namespace Schraeder

/-- One byte rendered MSB-first as eight bits. -/
def byteToBits (x : Nat) : List Bool :=
  [x.testBit 7, x.testBit 6, x.testBit 5, x.testBit 4,
   x.testBit 3, x.testBit 2, x.testBit 1, x.testBit 0]

/-- A byte sequence rendered as a bit sequence, MSB-first within each byte. -/
def bytesToBits (l : List Nat) : List Bool :=
  (l.map byteToBits).flatten

/-- Reassemble one byte from MSB-first bits. -/
def bitsToByte (l : List Bool) : Nat :=
  l.foldl (fun acc u => 2 * acc + (if u then 1 else 0)) 0

/-- Pad a bit sequence with zero bits up to length n. -/
def padTo (n : Nat) (l : List Bool) : List Bool :=
  l ++ List.replicate (n - l.length) false

/-- Chop a bit sequence into n MSB-first bytes, zero-padding the final chunk. -/
def bitsToBytesN : Nat → List Bool → List Nat
  | 0, _ => []
  | n + 1, l => bitsToByte (padTo 8 (l.take 8)) :: bitsToBytesN n (l.drop 8)

/-- Modelled from the spec: the Bit Extractor contract of §4.1 (the C function
bitbuffer_extract_bytes, whose source is not under src/). It copies count bits
starting at bit offset, left-justified, into ceil(count/8) bytes, with zero
bits past the requested count. Spec §4.4 requires SE3 extraction of 40 bits
from frames of only 52 or 53 bits to still yield five bytes, so bits past the
end of the source sequence are modelled as zero — the fixed-size
zero-initialised row storage the C callers actually read from — rather than as
a failure. -/
def bitbuffer_extract_bytes (bits : List Bool) (offset count : Nat) : List Nat :=
  bitsToBytesN ((count + 7) / 8) (padTo count ((bits.drop offset).take count))

/-- Modelled from the spec: one shift-and-conditional-xor round of the CRC-8 of
§4.2 (the C function crc8, whose source is not under src/), truncated to eight
bits as the C remainder variable is. -/
def crc8_round (polynomial r : Nat) : Nat :=
  if r &&& 0x80 ≠ 0 then ((r <<< 1) ^^^ polynomial) &&& 0xFF
  else (r <<< 1) &&& 0xFF

/-- Modelled from the spec: CRC-8 over a byte sequence with a given polynomial
and initial value (§4.2): xor each message byte into the running remainder,
then run eight shift rounds per byte. -/
def crc8 (message : List Nat) (polynomial init : Nat) : Nat :=
  message.foldl
    (fun remainder byte => (crc8_round polynomial)^[8] ((remainder ^^^ byte) &&& 0xFF))
    (init &&& 0xFF)

/-- Modelled from the spec: the additive checksum helper of §4.3 (the C
function add_bytes, whose source is not under src/): the sum of the bytes. -/
def add_bytes (message : List Nat) : Nat :=
  message.foldl (· + ·) 0

/-- Rejection reasons of §7: wrong total bit length (DECODE_ABORT_LENGTH in
the C source) or a failed integrity code (DECODE_FAIL_MIC). -/
inductive DecodeError where
  | FrameLengthMismatch
  | IntegrityFailure
deriving DecidableEq

/-- Model tags of the three variants. -/
inductive Model where
  | Schrader
  | SchraderEG53MA4
  | SchraderSE3
deriving DecidableEq

/-- Integrity labels surfaced in the output: CRC, CHECKSUM, or the N/A label
of the unverified SE3 variant. -/
inductive MicLabel where
  | CRC
  | CHECKSUM
  | NA
deriving DecidableEq

/-- Decoded Reading of the Classic decoder: the fields assembled at lines
56..72 of the source. pressure is the C int in mbar; pressure_kPa is the
double handed to the output writer, modelled exactly in ℚ. -/
structure ClassicReading where
  model : Model
  flags : Nat
  serial_id : Nat
  pressure : Nat
  temperature : Int
  pressure_kPa : ℚ
  mic : MicLabel
deriving DecidableEq

/-- Decoded Reading of the EG53MA4 decoder, lines 119..135 of the source. -/
structure EG53MA4Reading where
  model : Model
  flags : Nat
  serial_id : Nat
  pressure : Nat
  temperature : Nat
  pressure_kPa : ℚ
  mic : MicLabel
deriving DecidableEq

/-- Decoded Reading of the SE3 decoder, lines 182..212 of the source.
pressure_raw is PRESSURE_INT_VAL; pressure_out is the double handed to the
output writer, modelled exactly in ℚ. -/
structure SE3Reading where
  model : Model
  flags : Nat
  serial_id : Nat
  pressure_raw : Nat
  pressure_out : ℚ
  mic : MicLabel
deriving DecidableEq

/-- Length test of the Classic decoder, line 45: exactly 68 bits. -/
def classic_length_ok (n : Nat) : Bool := n == 68

/-- Length test of the EG53MA4 decoder, line 107: exactly 120 bits. -/
def EG53MA4_length_ok (n : Nat) : Bool := n == 120

/-- Length test of the SE3 decoder, line 170: 52 or 53 bits. -/
def SE3_length_ok (n : Nat) : Bool := n == 52 || n == 53

/-- Start bit offset of the extraction call at line 49. -/
def classic_extract_offset : Nat := 4

/-- Bit count of the extraction call at line 49. -/
def classic_extract_count : Nat := 64

/-- Start bit offset of the extraction call at line 111. -/
def EG53MA4_extract_offset : Nat := 40

/-- Bit count of the extraction call at line 111. -/
def EG53MA4_extract_count : Nat := 80

/-- Start bit offset of the extraction call at line 174. -/
def SE3_extract_offset : Nat := 16

/-- Bit count of the extraction call at line 174. -/
def SE3_extract_count : Nat := 40

/-- Declared element count of the SE3 working buffer, uint8_t b[5] at line
167 of the source. -/
def SE3_declared_buffer_len : Nat := 5

/-- Index of the parity-sentinel store b[5] = 0x00 at line 186 of the
source. -/
def SE3_sentinel_write_index : Nat := 5

/-- Per-byte parity helper find_byte_parity, lines 142..152 of the source: the
accumulator starts at 0x01 and xors bits 7, 6, 5, 4, 3, 2 and 0 of the byte;
bit 1 is absent from the source. -/
def find_byte_parity (byte : Nat) : Nat :=
  let parity := 0x01
  let parity := parity ^^^ ((byte >>> 7) &&& 0x1)
  let parity := parity ^^^ ((byte >>> 6) &&& 0x1)
  let parity := parity ^^^ ((byte >>> 5) &&& 0x1)
  let parity := parity ^^^ ((byte >>> 4) &&& 0x1)
  let parity := parity ^^^ ((byte >>> 3) &&& 0x1)
  let parity := parity ^^^ ((byte >>> 2) &&& 0x1)
  let parity := parity ^^^ (byte &&& 0x1)
  parity &&& 0x1

/-- Frame parity helper parity_check, lines 154..160 of the source. The C
local variable parity is read before it is ever written (uint8_t parity; then
parity ^= ...), so its indeterminate initial contents appear here as the
explicit argument parity0. -/
def parity_check (parity0 : Nat) (data : List Nat) (LENGTH : Nat) : Bool :=
  (((List.range LENGTH).foldl
      (fun parity j => parity ^^^ find_byte_parity (data.getD j 0)) parity0)
    &&& 0x1) != 0

/-- Field assembly of the Classic decoder, lines 56..70 of the source, from
the de-synced byte-aligned payload b. -/
def classic_fields (b : List Nat) : ClassicReading :=
  let serial_id := ((b.getD 1 0 &&& 0x0F) <<< 24) ||| (b.getD 2 0 <<< 16) |||
                   (b.getD 3 0 <<< 8) ||| b.getD 4 0
  let flags := ((b.getD 0 0 &&& 0x0F) <<< 4) ||| (b.getD 1 0 >>> 4)
  let pressure := b.getD 5 0 * 25
  let temperature : Int := (b.getD 6 0 : Int) - 50
  { model := .Schrader, flags := flags, serial_id := serial_id,
    pressure := pressure, temperature := temperature,
    pressure_kPa := (pressure : ℚ) * (1 / 10), mic := .CRC }

/-- Classic decoder schraeder_callback, lines 34..76 of the source, over a
single bitbuffer row given as a bit list. -/
def schraeder_callback (bitbuffer : List Bool) : Except DecodeError ClassicReading :=
  if classic_length_ok bitbuffer.length then
    let b := bitbuffer_extract_bytes bitbuffer classic_extract_offset classic_extract_count
    if b.getD 7 0 != crc8 (b.take 7) 0x07 0xF0 then .error .IntegrityFailure
    else .ok (classic_fields b)
  else .error .FrameLengthMismatch

/-- Field assembly of the EG53MA4 decoder, lines 119..133 of the source, from
the de-synced byte-aligned payload b. -/
def EG53MA4_fields (b : List Nat) : EG53MA4Reading :=
  let serial_id := (b.getD 4 0 <<< 16) ||| (b.getD 5 0 <<< 8) ||| b.getD 6 0
  let flags := (b.getD 0 0 <<< 24) ||| (b.getD 1 0 <<< 16) |||
               (b.getD 2 0 <<< 8) ||| b.getD 3 0
  let pressure := b.getD 7 0 * 25
  let temperature := b.getD 8 0
  { model := .SchraderEG53MA4, flags := flags, serial_id := serial_id,
    pressure := pressure, temperature := temperature,
    pressure_kPa := (pressure : ℚ) * (1 / 10), mic := .CHECKSUM }

/-- EG53MA4 decoder schrader_EG53MA4_callback, lines 95..139 of the source. -/
def schrader_EG53MA4_callback (bitbuffer : List Bool) : Except DecodeError EG53MA4Reading :=
  if EG53MA4_length_ok bitbuffer.length then
    let b := bitbuffer_extract_bytes bitbuffer EG53MA4_extract_offset EG53MA4_extract_count
    let checksum := add_bytes (b.take 9) &&& 0xFF
    if checksum != b.getD 9 0 then .error .IntegrityFailure
    else .ok (EG53MA4_fields b)
  else .error .FrameLengthMismatch

/-- Field assembly of the SE3 decoder, lines 191..201 of the source, from the
de-synced byte-aligned payload b. In the source the fields are computed after
the statement b[4] = b[4] & 0xE0, so byte 4 appears here only through that
mask. -/
def SE3_fields (b : List Nat) : SE3Reading :=
  let b0 := b.getD 0 0
  let b1 := b.getD 1 0
  let b2 := b.getD 2 0
  let b3 := b.getD 3 0
  let b4 := b.getD 4 0 &&& 0xE0
  let flags := (b0 &&& 0xE0) >>> 5
  let ID_BYTE_1 := ((b0 &&& 0x1F) <<< 3) ||| ((b1 &&& 0xE0) >>> 5)
  let ID_BYTE_2 := ((b1 &&& 0x1F) <<< 3) ||| ((b2 &&& 0xE0) >>> 5)
  let ID_BYTE_3 := ((b2 &&& 0x1F) <<< 3) ||| ((b3 &&& 0xE0) >>> 5)
  let SERIAL_ID := (ID_BYTE_1 <<< 16) ||| (ID_BYTE_2 <<< 8) ||| ID_BYTE_3
  let PRESSURE_INT_VAL := ((b3 &&& 0x1F) <<< 3) ||| ((b4 &&& 0xE0) >>> 5)
  { model := .SchraderSE3, flags := flags, serial_id := SERIAL_ID,
    pressure_raw := PRESSURE_INT_VAL,
    pressure_out := (PRESSURE_INT_VAL : ℚ) * (2 / 10) + 1 / 10,
    mic := .NA }

/-- SE3 decoder schrader_SE3_callback, lines 162..216 of the source. PARITY_VAL
is read from bit 4 of b[4] before b[4] is masked to its top three bits; the
store b[5] = 0x00 lands one element past the declared five-byte buffer (it is the sixth
list entry here); the parity comparison at line 187 has an empty body (the
rejection is commented out), so its value is bound but unused. The
indeterminate initial contents of the uninitialised parity accumulator of
parity_check are the explicit argument parity0. -/
def schrader_SE3_callback (parity0 : Nat) (bitbuffer : List Bool) : Except DecodeError SE3Reading :=
  if SE3_length_ok bitbuffer.length then
    let b := bitbuffer_extract_bytes bitbuffer SE3_extract_offset SE3_extract_count
    let PARITY_VAL := (b.getD 4 0 &&& 0x10) >>> 4
    let b4 := b.getD 4 0 &&& 0xE0
    let b5 := 0x00
    let _MIC_FAIL :=
      (if parity_check parity0 [b.getD 0 0, b.getD 1 0, b.getD 2 0, b.getD 3 0, b4, b5] 5
       then 1 else 0) != PARITY_VAL
    .ok (SE3_fields b)
  else .error .FrameLengthMismatch

/-- The seven payload bytes of the worked Classic example in the source header
comment and §8, without the trailing CRC byte. -/
def classic_example_payload : List Nat := [0x70, 0x3A, 0x38, 0xB2, 0x00, 0x49, 0x49]

/-- A 68-bit Classic frame: sync nibble 0x7 followed by the example payload
and its correct CRC-8. -/
def classic_example_frame : List Bool :=
  [false, true, true, true] ++
    bytesToBits (classic_example_payload ++ [crc8 classic_example_payload 0x07 0xF0])

/-! General lemmas about the bit and byte conversions. -/

theorem byteToBits_length (x : Nat) : (byteToBits x).length = 8 := rfl

theorem bytesToBits_length (p : List Nat) : (bytesToBits p).length = 8 * p.length := by
  induction p with
  | nil => rfl
  | cons x xs ih =>
    show (byteToBits x ++ bytesToBits xs).length = 8 * (xs.length + 1)
    rw [List.length_append, byteToBits_length, ih]
    ring

theorem padTo_eq_of_length {n : Nat} {l : List Bool} (h : l.length = n) : padTo n l = l := by
  simp [padTo, h]

set_option maxRecDepth 8192 in
theorem bitsToByte_byteToBits : ∀ x : Nat, x < 256 → bitsToByte (byteToBits x) = x := by
  decide

theorem bitsToBytesN_length : ∀ (n : Nat) (l : List Bool), (bitsToBytesN n l).length = n := by
  intro n
  induction n with
  | zero => intro l; rfl
  | succ k ih => intro l; show _ + 1 = k + 1; rw [ih]

theorem bitsToBytesN_append (k : Nat) : ∀ (j : Nat) (l m : List Bool), l.length = 8 * k →
    bitsToBytesN (k + j) (l ++ m) = bitsToBytesN k l ++ bitsToBytesN j m := by
  induction k with
  | zero =>
    intro j l m h
    have hl : l = [] := List.length_eq_zero.mp (by omega)
    subst hl
    simp [bitsToBytesN]
  | succ k ih =>
    intro j l m h
    have h8 : 8 ≤ l.length := by omega
    have ht : (l ++ m).take 8 = l.take 8 := by
      rw [List.take_append_eq_append_take]
      have h0 : 8 - l.length = 0 := by omega
      simp [h0]
    have hd : (l ++ m).drop 8 = l.drop 8 ++ m := List.drop_append_of_le_length h8
    have hsucc : k + 1 + j = (k + j) + 1 := by omega
    rw [hsucc]
    show bitsToByte (padTo 8 ((l ++ m).take 8)) :: bitsToBytesN (k + j) ((l ++ m).drop 8) = _
    rw [ht, hd, ih j (l.drop 8) m (by rw [List.length_drop]; omega)]
    rfl

theorem bitsToBytesN_bytesToBits : ∀ p : List Nat, (∀ x ∈ p, x < 256) →
    bitsToBytesN p.length (bytesToBits p) = p := by
  intro p
  induction p with
  | nil => intro _; rfl
  | cons x xs ih =>
    intro h
    have hx : x < 256 := h x (List.mem_cons_self x xs)
    have hxs : ∀ y ∈ xs, y < 256 := fun y hy => h y (List.mem_cons_of_mem x hy)
    have hbb : bytesToBits (x :: xs) = byteToBits x ++ bytesToBits xs := by
      simp [bytesToBits]
    rw [show (x :: xs).length = xs.length + 1 from rfl, hbb]
    show bitsToByte (padTo 8 ((byteToBits x ++ bytesToBits xs).take 8)) ::
        bitsToBytesN xs.length ((byteToBits x ++ bytesToBits xs).drop 8) = x :: xs
    have ht : (byteToBits x ++ bytesToBits xs).take 8 = byteToBits x :=
      List.take_left (byteToBits x) (bytesToBits xs)
    have hd : (byteToBits x ++ bytesToBits xs).drop 8 = bytesToBits xs :=
      List.drop_left (byteToBits x) (bytesToBits xs)
    rw [ht, hd, padTo_eq_of_length (byteToBits_length x),
      bitsToByte_byteToBits x hx, ih hxs]

theorem bitbuffer_extract_bytes_roundtrip (pre : List Bool) (p : List Nat)
    (h : ∀ x ∈ p, x < 256) :
    bitbuffer_extract_bytes (pre ++ bytesToBits p) pre.length (8 * p.length) = p := by
  unfold bitbuffer_extract_bytes
  rw [List.drop_left]
  have hlen : (bytesToBits p).length = 8 * p.length := bytesToBits_length p
  rw [List.take_of_length_le (le_of_eq hlen), padTo_eq_of_length hlen]
  have hdiv : (8 * p.length + 7) / 8 = p.length := by omega
  rw [hdiv]
  exact bitsToBytesN_bytesToBits p h

theorem and_255_eq_mod (n : Nat) : n &&& 255 = n % 256 := by
  have h := Nat.and_pow_two_sub_one_eq_mod n 8
  norm_num at h
  exact h

/-! Case analyses of the three decoders on frames of accepted length. -/

theorem classic_decode_eq (bits : List Bool) (h : bits.length = 68) :
    schraeder_callback bits =
      if (bitbuffer_extract_bytes bits 4 64).getD 7 0 =
          crc8 ((bitbuffer_extract_bytes bits 4 64).take 7) 0x07 0xF0
      then .ok (classic_fields (bitbuffer_extract_bytes bits 4 64))
      else .error .IntegrityFailure := by
  have hlen : classic_length_ok bits.length = true := by
    simp [classic_length_ok, h]
  by_cases hc : (bitbuffer_extract_bytes bits 4 64).getD 7 0 =
      crc8 ((bitbuffer_extract_bytes bits 4 64).take 7) 0x07 0xF0
  · rw [if_pos hc]
    simp [schraeder_callback, hlen, classic_extract_offset, classic_extract_count, hc]
    rwa [List.getD_eq_getElem?_getD] at hc
  · rw [if_neg hc]
    simp [schraeder_callback, hlen, classic_extract_offset, classic_extract_count, hc]
    rwa [List.getD_eq_getElem?_getD] at hc

theorem EG53MA4_decode_eq (bits : List Bool) (h : bits.length = 120) :
    schrader_EG53MA4_callback bits =
      if add_bytes ((bitbuffer_extract_bytes bits 40 80).take 9) % 256 =
          (bitbuffer_extract_bytes bits 40 80).getD 9 0
      then .ok (EG53MA4_fields (bitbuffer_extract_bytes bits 40 80))
      else .error .IntegrityFailure := by
  have hlen : EG53MA4_length_ok bits.length = true := by
    simp [EG53MA4_length_ok, h]
  by_cases hc : add_bytes ((bitbuffer_extract_bytes bits 40 80).take 9) % 256 =
      (bitbuffer_extract_bytes bits 40 80).getD 9 0
  · rw [if_pos hc]
    simp [schrader_EG53MA4_callback, hlen, EG53MA4_extract_offset, EG53MA4_extract_count,
      and_255_eq_mod, hc]
  · rw [if_neg hc]
    simp [schrader_EG53MA4_callback, hlen, EG53MA4_extract_offset, EG53MA4_extract_count,
      and_255_eq_mod, hc]
    rwa [List.getD_eq_getElem?_getD] at hc

theorem SE3_decode_eq (parity0 : Nat) (bits : List Bool) (h : SE3_length_ok bits.length = true) :
    schrader_SE3_callback parity0 bits =
      .ok (SE3_fields (bitbuffer_extract_bytes bits 16 40)) := by
  simp [schrader_SE3_callback, h, SE3_extract_offset, SE3_extract_count]

/-! Claim theorems. -/

/-- C1: for every 68-bit Classic frame with de-synced payload bytes b[0..7],
decoding produces a Decoded Reading iff b[7] equals CRC-8 over b[0..6] with
polynomial 0x07 and initial value 0xF0; whenever b[7] differs from that CRC
the result is IntegrityFailure and no reading is produced. -/
theorem classic_crc_gate (bits : List Bool) (h : bits.length = 68) :
    ((∃ r, schraeder_callback bits = .ok r) ↔
      (bitbuffer_extract_bytes bits 4 64).getD 7 0 =
        crc8 ((bitbuffer_extract_bytes bits 4 64).take 7) 0x07 0xF0) ∧
    ((bitbuffer_extract_bytes bits 4 64).getD 7 0 ≠
        crc8 ((bitbuffer_extract_bytes bits 4 64).take 7) 0x07 0xF0 →
      schraeder_callback bits = .error .IntegrityFailure) := by
  rw [classic_decode_eq bits h]
  by_cases hc : (bitbuffer_extract_bytes bits 4 64).getD 7 0 =
      crc8 ((bitbuffer_extract_bytes bits 4 64).take 7) 0x07 0xF0
  · rw [List.getD_eq_getElem?_getD] at hc
    simp [hc]
  · rw [List.getD_eq_getElem?_getD] at hc
    simp [hc]

set_option maxRecDepth 65536 in
/-- Witness for C1: the worked example frame carries a matching CRC byte and
decodes to a reading. -/
theorem classic_crc_gate_witness :
    ∃ r, schraeder_callback classic_example_frame = .ok r :=
  (classic_crc_gate classic_example_frame (by decide)).1.mpr (by decide)

/-- C2: an EG53MA4 frame is accepted iff the sum of the first nine de-synced
payload bytes modulo 256 equals the tenth; and replacing an accepted checksum
byte by that byte plus a delta that is nonzero modulo 256 always flips the
verdict to IntegrityFailure. -/
theorem EG53MA4_checksum_gate :
    (∀ bits : List Bool, bits.length = 120 →
      ((∃ r, schrader_EG53MA4_callback bits = .ok r) ↔
        add_bytes ((bitbuffer_extract_bytes bits 40 80).take 9) % 256 =
          (bitbuffer_extract_bytes bits 40 80).getD 9 0)) ∧
    (∀ (sync : List Bool) (p : List Nat) (c delta : Nat),
      sync.length = 40 → p.length = 9 → (∀ y ∈ p, y < 256) → c < 256 →
      delta % 256 ≠ 0 →
      (∃ r, schrader_EG53MA4_callback (sync ++ bytesToBits (p ++ [c])) = .ok r) →
      schrader_EG53MA4_callback (sync ++ bytesToBits (p ++ [(c + delta) % 256])) =
        .error .IntegrityFailure) := by
  have gate : ∀ bits : List Bool, bits.length = 120 →
      ((∃ r, schrader_EG53MA4_callback bits = .ok r) ↔
        add_bytes ((bitbuffer_extract_bytes bits 40 80).take 9) % 256 =
          (bitbuffer_extract_bytes bits 40 80).getD 9 0) := by
    intro bits h
    rw [EG53MA4_decode_eq bits h]
    by_cases hc : add_bytes ((bitbuffer_extract_bytes bits 40 80).take 9) % 256 =
        (bitbuffer_extract_bytes bits 40 80).getD 9 0
    · rw [List.getD_eq_getElem?_getD] at hc
      simp [hc]
    · rw [List.getD_eq_getElem?_getD] at hc
      simp [hc]
  refine ⟨gate, ?_⟩
  intro sync p c delta hs hp hb hc hd hacc
  have hc2 : (c + delta) % 256 < 256 := Nat.mod_lt _ (by omega)
  have hb1 : ∀ y ∈ p ++ [c], y < 256 := by
    intro y hy
    rcases List.mem_append.mp hy with hy | hy
    · exact hb y hy
    · simp at hy; omega
  have hb2 : ∀ y ∈ p ++ [(c + delta) % 256], y < 256 := by
    intro y hy
    rcases List.mem_append.mp hy with hy | hy
    · exact hb y hy
    · simp at hy; omega
  have hround1 : bitbuffer_extract_bytes (sync ++ bytesToBits (p ++ [c])) 40 80 = p ++ [c] := by
    have := bitbuffer_extract_bytes_roundtrip sync (p ++ [c]) hb1
    rw [hs] at this
    rw [show (8 : Nat) * (p ++ [c]).length = 80 from by simp [hp]] at this
    exact this
  have hround2 : bitbuffer_extract_bytes
      (sync ++ bytesToBits (p ++ [(c + delta) % 256])) 40 80 = p ++ [(c + delta) % 256] := by
    have := bitbuffer_extract_bytes_roundtrip sync (p ++ [(c + delta) % 256]) hb2
    rw [hs] at this
    rw [show (8 : Nat) * (p ++ [(c + delta) % 256]).length = 80 from by simp [hp]] at this
    exact this
  have hlen1 : (sync ++ bytesToBits (p ++ [c])).length = 120 := by
    rw [List.length_append, hs, bytesToBits_length]
    simp [hp]
  have hlen2 : (sync ++ bytesToBits (p ++ [(c + delta) % 256])).length = 120 := by
    rw [List.length_append, hs, bytesToBits_length]
    simp [hp]
  have htake1 : (p ++ [c]).take 9 = p := by
    rw [show (9 : Nat) = p.length from hp.symm]
    exact List.take_left p [c]
  have hgetD1 : (p ++ [c]).getD 9 0 = c := by
    rw [List.getD_append_right p [c] 0 9 (by omega)]
    simp [hp]
  have hsum : add_bytes p % 256 = c := by
    have h1 := (gate _ hlen1).mp hacc
    rw [hround1, htake1, hgetD1] at h1
    exact h1
  have htake2 : (p ++ [(c + delta) % 256]).take 9 = p := by
    rw [show (9 : Nat) = p.length from hp.symm]
    exact List.take_left p _
  have hgetD2 : (p ++ [(c + delta) % 256]).getD 9 0 = (c + delta) % 256 := by
    rw [List.getD_append_right p _ 0 9 (by omega)]
    simp [hp]
  rw [EG53MA4_decode_eq _ hlen2, hround2, htake2, hgetD2, if_neg]
  rw [hsum]
  omega

set_option maxRecDepth 65536 in
/-- Witness for C2: a concrete frame whose checksum byte matches the byte sum
of its payload is accepted, and bumping the checksum byte by one is rejected. -/
theorem EG53MA4_checksum_gate_witness :
    schrader_EG53MA4_callback
      (List.replicate 40 false ++
        bytesToBits ([1, 2, 3, 4, 5, 6, 7, 8, 9] ++ [(45 + 1) % 256])) =
      .error .IntegrityFailure :=
  EG53MA4_checksum_gate.2 (List.replicate 40 false) [1, 2, 3, 4, 5, 6, 7, 8, 9] 45 1
    (by decide) (by decide) (by decide) (by decide) (by decide)
    ⟨EG53MA4_fields (bitbuffer_extract_bytes
        (List.replicate 40 false ++ bytesToBits ([1, 2, 3, 4, 5, 6, 7, 8, 9] ++ [45])) 40 80),
      by rfl⟩

/-- C3: a frame whose total bit length is not accepted by the selected variant
(68 for Classic, 120 for EG53MA4, 52 or 53 for SE3) is rejected with
FrameLengthMismatch by that variant; the early return carries no reading and
no extracted or computed field. -/
theorem wrong_length_rejected :
    (∀ bits : List Bool, bits.length ≠ 68 →
      schraeder_callback bits = .error .FrameLengthMismatch) ∧
    (∀ bits : List Bool, bits.length ≠ 120 →
      schrader_EG53MA4_callback bits = .error .FrameLengthMismatch) ∧
    (∀ (parity0 : Nat) (bits : List Bool), bits.length ≠ 52 → bits.length ≠ 53 →
      schrader_SE3_callback parity0 bits = .error .FrameLengthMismatch) := by
  refine ⟨?_, ?_, ?_⟩
  · intro bits h
    have hc : classic_length_ok bits.length = false := by
      simp [classic_length_ok, h]
    simp [schraeder_callback, hc]
  · intro bits h
    have hc : EG53MA4_length_ok bits.length = false := by
      simp [EG53MA4_length_ok, h]
    simp [schrader_EG53MA4_callback, hc]
  · intro parity0 bits h1 h2
    have hc : SE3_length_ok bits.length = false := by
      simp [SE3_length_ok, h1, h2]
    simp [schrader_SE3_callback, hc]

/-- Witness for C3: the empty bit sequence is rejected by all three
decoders. -/
theorem wrong_length_rejected_witness :
    schraeder_callback [] = .error .FrameLengthMismatch ∧
    schrader_EG53MA4_callback [] = .error .FrameLengthMismatch ∧
    schrader_SE3_callback 0 [] = .error .FrameLengthMismatch :=
  ⟨wrong_length_rejected.1 [] (by decide),
   wrong_length_rejected.2.1 [] (by decide),
   wrong_length_rejected.2.2 0 [] (by decide) (by decide)⟩

/-- C4 counterexample: the claim fails for SE3 — the SE3 length check accepts
52-bit frames, yet the extraction call requests bits 16..55, i.e.
start_bit_offset + count_bits = 56 > 52 bits, so the availability guarantee
does not hold there. -/
theorem SE3_extract_exceeds_frame :
    SE3_length_ok 52 = true ∧ ¬ (SE3_extract_offset + SE3_extract_count ≤ 52) := by
  decide

/-- C4 amended: the availability guarantee start_bit_offset + count_bits ≤
frame length holds for every frame accepted by the Classic and EG53MA4 length
checks, but fails for every frame accepted by the SE3 length check (52 or 53
bits against a 56-bit request). -/
theorem extract_availability_amended :
    (∀ n : Nat, classic_length_ok n = true →
      classic_extract_offset + classic_extract_count ≤ n) ∧
    (∀ n : Nat, EG53MA4_length_ok n = true →
      EG53MA4_extract_offset + EG53MA4_extract_count ≤ n) ∧
    (∀ n : Nat, SE3_length_ok n = true →
      ¬ (SE3_extract_offset + SE3_extract_count ≤ n)) := by
  refine ⟨?_, ?_, ?_⟩ <;> intro n h
  · have hn : n = 68 := by simpa [classic_length_ok] using h
    subst hn
    decide
  · have hn : n = 120 := by simpa [EG53MA4_length_ok] using h
    subst hn
    decide
  · have hn : n = 52 ∨ n = 53 := by simpa [SE3_length_ok] using h
    rcases hn with hn | hn <;> subst hn <;> decide

/-- Witness for C4 amended, at the accepted lengths 68, 120 and 52. -/
theorem extract_availability_amended_witness :
    classic_extract_offset + classic_extract_count ≤ 68 ∧
    EG53MA4_extract_offset + EG53MA4_extract_count ≤ 120 ∧
    ¬ (SE3_extract_offset + SE3_extract_count ≤ 52) :=
  ⟨extract_availability_amended.1 68 (by decide),
   extract_availability_amended.2.1 120 (by decide),
   extract_availability_amended.2.2 52 (by decide)⟩

set_option maxRecDepth 65536 in
/-- C5: on the validated worked example payload the Classic decoder computes
sensor id by the 28-bit packing formula (low nibble of b[1] then b[2], b[3],
b[4]), pressure 0x49 * 25 * 0.1 = 182.5 kPa, and temperature 73 - 50 = 23
degrees Celsius. -/
theorem classic_example_fields_correct :
    ∃ r, schraeder_callback classic_example_frame = .ok r ∧
      r.serial_id = (((0x3A &&& 0x0F) <<< 24) ||| (0x38 <<< 16) ||| (0xB2 <<< 8) ||| 0x00) ∧
      r.pressure_kPa = (0x49 * 25 : ℚ) * (1 / 10) ∧
      r.pressure_kPa = 182.5 ∧
      r.temperature = 73 - 50 := by
  have hE : bitbuffer_extract_bytes classic_example_frame 4 64 =
      [0x70, 0x3A, 0x38, 0xB2, 0x00, 0x49, 0x49, 0xD7] := by decide
  refine ⟨classic_fields (bitbuffer_extract_bytes classic_example_frame 4 64),
    ?_, ?_, ?_, ?_, ?_⟩
  · rfl
  · rw [hE]; decide
  · rw [hE]; norm_num [classic_fields]
  · rw [hE]; norm_num [classic_fields]
  · rw [hE]; decide

theorem list_len_four {α : Type _} {l : List α} (h : l.length = 4) :
    ∃ a b c d, l = [a, b, c, d] := by
  rcases l with _ | ⟨a, _ | ⟨b, _ | ⟨c, _ | ⟨d, _ | ⟨e, t⟩⟩⟩⟩⟩
  · simp at h
  · simp at h
  · simp at h
  · simp at h
  · exact ⟨a, b, c, d, rfl⟩
  · simp at h

theorem SE3_extract_trailing (bits : List Bool) (h : bits.length = 52) (x : Bool) :
    ∃ P v w, P.length = 4 ∧
      bitbuffer_extract_bytes bits 16 40 = P ++ [v] ∧
      bitbuffer_extract_bytes (bits ++ [x]) 16 40 = P ++ [w] ∧
      v &&& 0x10 = w &&& 0x10 ∧ v &&& 0xE0 = w &&& 0xE0 := by
  have hdl : (bits.drop 16).length = 36 := by
    rw [List.length_drop, h]
  obtain ⟨A, B, hA, hB, hAB⟩ :
      ∃ A B : List Bool, A.length = 32 ∧ B.length = 4 ∧ bits.drop 16 = A ++ B :=
    ⟨(bits.drop 16).take 32, (bits.drop 16).drop 32,
      by rw [List.length_take]; omega,
      by rw [List.length_drop]; omega,
      (List.take_append_drop 32 (bits.drop 16)).symm⟩
  obtain ⟨a, b, c, d, hBlit⟩ := list_len_four hB
  subst hBlit
  refine ⟨bitsToBytesN 4 A,
    bitsToByte [a, b, c, d, false, false, false, false],
    bitsToByte [a, b, c, d, x, false, false, false],
    bitsToBytesN_length 4 A, ?_, ?_, ?_, ?_⟩
  · unfold bitbuffer_extract_bytes
    rw [show (40 + 7) / 8 = 5 from rfl]
    rw [List.take_of_length_le (by omega : (bits.drop 16).length ≤ 40)]
    rw [show padTo 40 (bits.drop 16) = bits.drop 16 ++ List.replicate 4 false from by
      rw [padTo, hdl]]
    rw [hAB, List.append_assoc]
    rw [show (5 : Nat) = 4 + 1 from rfl]
    rw [bitsToBytesN_append 4 1 A _ (by rw [hA])]
    rfl
  · unfold bitbuffer_extract_bytes
    rw [show (40 + 7) / 8 = 5 from rfl]
    have hd2 : (bits ++ [x]).drop 16 = bits.drop 16 ++ [x] :=
      List.drop_append_of_le_length (by omega)
    rw [hd2]
    have hlen37 : (bits.drop 16 ++ [x]).length = 37 := by
      simp [hdl]
    rw [List.take_of_length_le (by rw [hlen37]; omega)]
    rw [show padTo 40 (bits.drop 16 ++ [x]) =
        (bits.drop 16 ++ [x]) ++ List.replicate 3 false from by
      rw [padTo, hlen37]]
    rw [hAB, List.append_assoc, List.append_assoc]
    rw [show (5 : Nat) = 4 + 1 from rfl]
    rw [bitsToBytesN_append 4 1 A _ (by rw [hA])]
    rfl
  · cases a <;> cases b <;> cases c <;> cases d <;> cases x <;> decide
  · cases a <;> cases b <;> cases c <;> cases d <;> cases x <;> decide

/-- C6: a 52-bit SE3 frame and the 53-bit frame obtained by appending one
trailing bit both pass the length check and decode to the same sensor id,
pressure and flags, for any initial contents of the parity accumulator; the
extra bit influences at most the parity computation, not the field layout. -/
theorem SE3_trailing_bit_irrelevant (bits : List Bool) (h : bits.length = 52) (x : Bool)
    (i j : Nat) :
    ∃ r s, schrader_SE3_callback i bits = .ok r ∧
      schrader_SE3_callback j (bits ++ [x]) = .ok s ∧
      r.serial_id = s.serial_id ∧ r.pressure_out = s.pressure_out ∧ r.flags = s.flags := by
  obtain ⟨P, v, w, hP, h1, h2, h10, hE0⟩ := SE3_extract_trailing bits h x
  have hb1 : SE3_length_ok bits.length = true := by
    simp [SE3_length_ok, h]
  have hb2 : SE3_length_ok (bits ++ [x]).length = true := by
    simp [SE3_length_ok, h]
  refine ⟨SE3_fields (P ++ [v]), SE3_fields (P ++ [w]), ?_, ?_, ?_, ?_, ?_⟩
  · rw [SE3_decode_eq i bits hb1, h1]
  · rw [SE3_decode_eq j _ hb2, h2]
  · obtain ⟨a, b, c, d, rfl⟩ := list_len_four hP
    simp [SE3_fields, hE0]
  · obtain ⟨a, b, c, d, rfl⟩ := list_len_four hP
    simp [SE3_fields, hE0]
  · obtain ⟨a, b, c, d, rfl⟩ := list_len_four hP
    simp [SE3_fields, hE0]

set_option maxRecDepth 65536 in
/-- Witness for C6 at a concrete all-ones 52-bit frame with a zero trailing
bit appended, and distinct parity accumulator start values. -/
theorem SE3_trailing_bit_irrelevant_witness :
    ∃ r s, schrader_SE3_callback 0 (List.replicate 52 true) = .ok r ∧
      schrader_SE3_callback 1 (List.replicate 52 true ++ [false]) = .ok s ∧
      r.serial_id = s.serial_id ∧ r.pressure_out = s.pressure_out ∧ r.flags = s.flags :=
  SE3_trailing_bit_irrelevant (List.replicate 52 true) (by decide) false 0 1

/-- C7 (code defect): the parity value compared against PARITY_VAL is NOT
accumulated from a defined zero — the C accumulator is read uninitialised, and
the embedded parity_check provably depends on the accumulator start value:
over the all-zero five-byte buffer, start values 0 and 1 give different
results. -/
theorem SE3_parity_accumulator_uninitialised :
    parity_check 0 [0, 0, 0, 0, 0, 0] 5 ≠ parity_check 1 [0, 0, 0, 0, 0, 0] 5 := by
  decide

/-- C8: the SE3 decode path has the two claimed defects — the parity-sentinel
store targets index 5 of the buffer declared with five elements (an
out-of-bounds write), and the parity accumulation depends on the indeterminate
initial value of its never-initialised accumulator. -/
theorem SE3_buffer_defects :
    ¬ (SE3_sentinel_write_index < SE3_declared_buffer_len) ∧
    (∃ i1 i2 : Nat, ∃ d : List Nat, ∃ L : Nat,
      parity_check i1 d L ≠ parity_check i2 d L) :=
  ⟨by decide, 0, 1, [1, 0, 0, 0, 0, 0], 5, by decide⟩

/-- C9: decoding the same frame twice with the same variant yields identical
readings; for SE3 this holds even across different indeterminate initial
values of the uninitialised parity accumulator, because the parity comparison
has no effect on the output. -/
theorem decode_deterministic :
    (∀ bits : List Bool, schraeder_callback bits = schraeder_callback bits) ∧
    (∀ bits : List Bool, schrader_EG53MA4_callback bits = schrader_EG53MA4_callback bits) ∧
    (∀ (i1 i2 : Nat) (bits : List Bool),
      schrader_SE3_callback i1 bits = schrader_SE3_callback i2 bits) :=
  ⟨fun _ => rfl, fun _ => rfl, fun _ _ _ => rfl⟩

/-- Witness for C9 at a concrete 52-bit frame and two distinct parity
accumulator start values. -/
theorem decode_deterministic_witness :
    schrader_SE3_callback 0 (List.replicate 52 true) =
      schrader_SE3_callback 1 (List.replicate 52 true) :=
  decode_deterministic.2.2 0 1 (List.replicate 52 true)

set_option maxRecDepth 8192 in
/-- C10: find_byte_parity xors bits 7, 6, 5, 4, 3, 2 and 0 of its argument but
omits bit 1, so bytes differing only in bit 1 always get the same per-byte
parity. -/
theorem find_byte_parity_ignores_bit1 :
    ∀ x : Nat, x < 256 → find_byte_parity x = find_byte_parity (x ^^^ 0x02) := by
  decide

/-- Witness for C10 at x = 0: bytes 0x00 and 0x02 get the same parity. -/
theorem find_byte_parity_ignores_bit1_witness :
    find_byte_parity 0 = find_byte_parity (0 ^^^ 0x02) :=
  find_byte_parity_ignores_bit1 0 (by decide)

end Schraeder
